import Mathlib

/-!
Shallow embedding of `src/main.rs` of the solana-http-server repository:
a stateless HTTP facade that generates keypairs and assembles the SPL-token
`InitializeMint` and `MintTo` instructions.  Bytes are modelled as `Nat`
(with the invariant `< 256` carried in hypotheses where it matters), byte
strings as `List Nat`, and the handlers as pure functions from the decoded
request structs to a response value.  Randomness (keypair generation) and
the ed25519 public-key derivation are parameters of the corresponding
definitions.
-/

namespace SolanaHttp

/-- The Bitcoin base-58 alphabet used by the `bs58` crate
(and by `Pubkey`'s `FromStr`/`Display`). -/
def b58Alphabet : String :=
  "123456789ABCDEFGHJKLMNPQRSTUVWXYZabcdefghijkmnopqrstuvwxyz"

/-- Index of a character in the base-58 alphabet; `none` for a character
that is not valid base-58. -/
def b58IndexOf (c : Char) : Option Nat :=
  b58Alphabet.toList.findIdx? (· == c)

/-- Character for a base-58 digit (digits are `< 58`). -/
def b58Char (d : Nat) : Char :=
  b58Alphabet.toList.getD d '1'

/-- Little-endian digits of `n` in base `b`, with explicit fuel so the
definition is structurally recursive (fuel at least the digit count gives
the exact digit list). -/
def leDigits (b : Nat) : Nat → Nat → List Nat
  | 0, _ => []
  | fuel + 1, n => if n = 0 then [] else n % b :: leDigits b fuel (n / b)

/-- Map the characters of a string through the base-58 alphabet;
fails if any character is not base-58. -/
def b58Values : List Char → Option (List Nat)
  | [] => some []
  | c :: cs =>
    match b58IndexOf c, b58Values cs with
    | some d, some ds => some (d :: ds)
    | _, _ => none

/-- `bs58::decode(s).into_vec()`: leading `'1'` characters become leading
zero bytes; the remaining digits form a big-endian big number. -/
def bs58DecodeBytes (s : String) : Option (List Nat) :=
  (b58Values s.toList).map (fun ds =>
    List.replicate ((s.toList.takeWhile (· == '1')).length) 0 ++
      (leDigits 256 s.toList.length (ds.foldl (fun acc d => acc * 58 + d) 0)).reverse)

/-- `bs58::encode(bytes).into_string()`: leading zero bytes become `'1'`
characters; the rest is the big-endian base-58 digit string of the number. -/
def bs58Encode (bs : List Nat) : String :=
  String.mk (List.replicate ((bs.takeWhile (· == 0)).length) '1' ++
    (leDigits 58 (2 * bs.length) (bs.foldl (fun acc b => acc * 256 + b) 0)).reverse.map b58Char)

/-- A Solana public key: 32 raw bytes. -/
abbrev Pubkey := List Nat

/-- `Pubkey::from_str`: at most 44 characters of valid base-58 that decode
to exactly 32 bytes. -/
def Pubkey.fromStr (s : String) : Option Pubkey :=
  if 44 < s.length then none
  else
    match bs58DecodeBytes s with
    | none => none
    | some v => if v.length = 32 then some v else none

/-- `Pubkey`'s `Display`: base-58 encoding of the 32 bytes. -/
def Pubkey.toString (p : Pubkey) : String := bs58Encode p

/-- `spl_token::id()`: the byte value of the constant program address
`TokenkegQfeZyiNwAJbNbGKPFXCWuBvf9Ss623VQ5DA` (declared via `declare_id!`). -/
def splTokenId : Pubkey :=
  (bs58DecodeBytes "TokenkegQfeZyiNwAJbNbGKPFXCWuBvf9Ss623VQ5DA").getD []

/-- `sysvar::rent::id()`: the rent sysvar address
`SysvarRent111111111111111111111111111111111`. -/
def rentSysvarId : Pubkey :=
  (bs58DecodeBytes "SysvarRent111111111111111111111111111111111").getD []

/-- `solana_sdk::instruction::AccountMeta`. -/
structure AccountMeta where
  pubkey : Pubkey
  is_signer : Bool
  is_writable : Bool
deriving DecidableEq

/-- `solana_sdk::instruction::Instruction`. -/
structure Instruction where
  program_id : Pubkey
  accounts : List AccountMeta
  data : List Nat
deriving DecidableEq

/-- `spl_token::check_program_account`: the given program id must equal
`spl_token::id()`. -/
def checkProgramAccount (tokenProgramId : Pubkey) : Bool :=
  tokenProgramId == splTokenId

/-- The 8 little-endian bytes of a `u64` (`amount.to_le_bytes()`). -/
def u64LEBytes (n : Nat) : List Nat :=
  [n % 256, n / 256 % 256, n / 256 ^ 2 % 256, n / 256 ^ 3 % 256,
   n / 256 ^ 4 % 256, n / 256 ^ 5 % 256, n / 256 ^ 6 % 256, n / 256 ^ 7 % 256]

/-- `TokenInstruction::InitializeMint { .. }.pack()`: tag byte 0, decimals,
the 32 mint-authority bytes, then the `COption` freeze authority
(0 for `None`, 1 followed by 32 bytes for `Some`). -/
def packInitializeMint (decimals : Nat) (mintAuthority : Pubkey)
    (freezeAuthority : Option Pubkey) : List Nat :=
  0 :: decimals :: mintAuthority ++
    (match freezeAuthority with
     | some fa => 1 :: fa
     | none => [0])

/-- `TokenInstruction::MintTo { amount }.pack()`: tag byte 7 followed by the
8 little-endian bytes of the amount. -/
def packMintTo (amount : Nat) : List Nat :=
  7 :: u64LEBytes amount

/-- `spl_token::instruction::initialize_mint`: checks the program account,
then builds the instruction with the mint account (writable, non-signer)
and the rent sysvar (read-only, non-signer). -/
def initialize_mint (tokenProgramId mintPubkey mintAuthorityPubkey : Pubkey)
    (freezeAuthorityPubkey : Option Pubkey) (decimals : Nat) :
    Except String Instruction :=
  if checkProgramAccount tokenProgramId then
    Except.ok
      { program_id := tokenProgramId
        accounts := [⟨mintPubkey, false, true⟩, ⟨rentSysvarId, false, false⟩]
        data := packInitializeMint decimals mintAuthorityPubkey freezeAuthorityPubkey }
  else
    Except.error "incorrect program id for instruction"

/-- `spl_token::instruction::mint_to`: checks the program account, then
builds the instruction with the mint and destination accounts (writable,
non-signer) and the owner (read-only; signer exactly when the multisig
signer set is empty), followed by the multisig signers. -/
def mint_to (tokenProgramId mintPubkey accountPubkey ownerPubkey : Pubkey)
    (signerPubkeys : List Pubkey) (amount : Nat) : Except String Instruction :=
  if checkProgramAccount tokenProgramId then
    Except.ok
      { program_id := tokenProgramId
        accounts :=
          ⟨mintPubkey, false, true⟩ :: ⟨accountPubkey, false, true⟩ ::
            ⟨ownerPubkey, signerPubkeys.isEmpty, false⟩ ::
            signerPubkeys.map (fun s => ⟨s, true, false⟩)
        data := packMintTo amount }
  else
    Except.error "incorrect program id for instruction"

-- --- Base-64 (the `base64` crate's STANDARD engine) ---

/-- The standard base-64 alphabet. -/
def b64Alphabet : String :=
  "ABCDEFGHIJKLMNOPQRSTUVWXYZabcdefghijklmnopqrstuvwxyz0123456789+/"

/-- Character of a base-64 sextet (`< 64`). -/
def b64Char (d : Nat) : Char :=
  b64Alphabet.toList.getD d 'A'

/-- Index of a character in the base-64 alphabet. -/
def b64IndexOf (c : Char) : Option Nat :=
  b64Alphabet.toList.findIdx? (· == c)

/-- `general_purpose::STANDARD.encode`: 3 bytes become 4 characters; a
1- or 2-byte tail is padded with `'='`. -/
def b64Encode : List Nat → List Char
  | [] => []
  | [b0] => [b64Char (b0 / 4), b64Char (b0 % 4 * 16), '=', '=']
  | [b0, b1] => [b64Char (b0 / 4), b64Char (b0 % 4 * 16 + b1 / 16), b64Char (b1 % 16 * 4), '=']
  | b0 :: b1 :: b2 :: rest =>
    b64Char (b0 / 4) :: b64Char (b0 % 4 * 16 + b1 / 16) ::
      b64Char (b1 % 16 * 4 + b2 / 64) :: b64Char (b2 % 64) :: b64Encode rest

/-- Base-64 encoding as a string. -/
def b64EncodeStr (bs : List Nat) : String := String.mk (b64Encode bs)

/-- Base-64 decoding: 4-character groups, `'='`-padded at the end. -/
def b64Decode : List Char → Option (List Nat)
  | [] => some []
  | c0 :: c1 :: c2 :: c3 :: rest =>
    match b64IndexOf c0, b64IndexOf c1 with
    | some s0, some s1 =>
      if c2 = '=' then
        if c3 = '=' ∧ rest = [] then some [s0 * 4 + s1 / 16] else none
      else
        match b64IndexOf c2 with
        | some s2 =>
          if c3 = '=' then
            if rest = [] then some [s0 * 4 + s1 / 16, s1 % 16 * 16 + s2 / 4] else none
          else
            match b64IndexOf c3 with
            | some s3 =>
              match b64Decode rest with
              | some bs => some ((s0 * 4 + s1 / 16) :: (s1 % 16 * 16 + s2 / 4) :: (s2 % 4 * 64 + s3) :: bs)
              | none => none
            | none => none
        | none => none
    | _, _ => none
  | _ => none

/-- Base-64 decoding from a string. -/
def b64DecodeStr (s : String) : Option (List Nat) := b64Decode s.toList

-- --- API response structures (`ApiResponse<T>` and friends) ---

/-- The serialized envelope `ApiResponse<T>` together with the HTTP status
of the response carrying it. -/
structure Response (T : Type) where
  status : Nat
  success : Bool
  data : Option T
  error : Option String
deriving DecidableEq

/-- `error_response`: HTTP 400 with `success:false` and only an error
message. -/
def error_response {T : Type} (msg : String) : Response T :=
  { status := 400, success := false, data := none, error := some msg }

/-- `KeypairResponse`. -/
structure KeypairResponse where
  pubkey : String
  secret : String
deriving DecidableEq

/-- `AccountInfo` as serialized in an instruction response. -/
structure AccountInfoJson where
  pubkey : String
  is_signer : Bool
  is_writable : Bool
deriving DecidableEq

/-- `InstructionResponse`. -/
structure InstructionResponse where
  program_id : String
  accounts : List AccountInfoJson
  instruction_data : String
deriving DecidableEq

/-- `CreateTokenRequest` (deserialized JSON body of POST /token/create). -/
structure CreateTokenRequest where
  mint_authority : String
  mint : String
  decimals : Nat
deriving DecidableEq

/-- `MintTokenRequest` (deserialized JSON body of POST /token/mint). -/
structure MintTokenRequest where
  mint : String
  destination : String
  authority : String
  amount : Nat
deriving DecidableEq

-- --- Keypair model ---

/-- An ed25519 keypair: the 32-byte random seed (the secret half) and the
public key derived from it.  The derivation function is a parameter of the
model; `Keypair::new` draws `seed` from the CSPRNG and computes
`pubkey = derive seed`. -/
structure Keypair where
  seed : List Nat
  pubBytes : List Nat
deriving DecidableEq

/-- `Keypair::new`, with the randomness (`seed`) and the ed25519 public-key
derivation (`derive`) made explicit parameters. -/
def Keypair.new (derive : List Nat → List Nat) (seed : List Nat) : Keypair :=
  ⟨seed, derive seed⟩

/-- `Keypair::to_bytes`: the 64-byte representation, the 32 seed bytes
followed by the 32 public-key bytes. -/
def Keypair.toBytes (kp : Keypair) : List Nat := kp.seed ++ kp.pubBytes

/-- `keypair.pubkey().to_string()`. -/
def Keypair.pubkeyString (kp : Keypair) : String := bs58Encode kp.pubBytes

-- --- The four handlers ---

/-- Handler for POST /keypair (`generate_keypair`): `secret` is the base-58
encoding of the first 32 bytes of `to_bytes()`, `pubkey` the base-58
public key. -/
def generate_keypair (derive : List Nat → List Nat) (seed : List Nat) :
    Response KeypairResponse :=
  let keypair := Keypair.new derive seed
  let secretKeyBytes := keypair.toBytes.take 32
  { status := 200
    success := true
    data := some
      { pubkey := keypair.pubkeyString
        secret := bs58Encode secretKeyBytes }
    error := none }

/-- Serialize an `Instruction` into an `InstructionResponse` (the shared
tail of both token handlers). -/
def instructionToResponse (inst : Instruction) : InstructionResponse :=
  { program_id := Pubkey.toString inst.program_id
    accounts := inst.accounts.map
      (fun acc => ⟨Pubkey.toString acc.pubkey, acc.is_signer, acc.is_writable⟩)
    instruction_data := b64EncodeStr inst.data }

/-- Handler for POST /token/create (`create_token`). -/
def create_token (req : CreateTokenRequest) : Response InstructionResponse :=
  match Pubkey.fromStr req.mint_authority with
  | none => error_response "Invalid base58 string for mintAuthority."
  | some mintAuthorityPubkey =>
    match Pubkey.fromStr req.mint with
    | none => error_response "Invalid base58 string for mint."
    | some mintPubkey =>
      match initialize_mint splTokenId mintPubkey mintAuthorityPubkey none req.decimals with
      | Except.error e => error_response ("Failed to create instruction: " ++ e)
      | Except.ok inst =>
        { status := 200
          success := true
          data := some (instructionToResponse inst)
          error := none }

/-- Handler for POST /token/mint (`mint_token`). -/
def mint_token (req : MintTokenRequest) : Response InstructionResponse :=
  match Pubkey.fromStr req.mint with
  | none => error_response "Invalid base58 string for mint."
  | some mintPubkey =>
    match Pubkey.fromStr req.destination with
    | none => error_response "Invalid base58 string for destination."
    | some destinationPubkey =>
      match Pubkey.fromStr req.authority with
      | none => error_response "Invalid base58 string for authority."
      | some authorityPubkey =>
        match mint_to splTokenId mintPubkey destinationPubkey authorityPubkey [] req.amount with
        | Except.error e => error_response ("Failed to create mint-to instruction: " ++ e)
        | Except.ok inst =>
          { status := 200
            success := true
            data := some (instructionToResponse inst)
            error := none }

/-- A plain (non-JSON) HTTP response. -/
structure PlainResponse where
  status : Nat
  body : String
deriving DecidableEq

/-- Handler for GET /health (`health`): `HttpResponse::Ok().body("OK")`. -/
def health : PlainResponse := ⟨200, "OK"⟩

/-- The /health route: the handler takes no extractor, so the request body
is ignored entirely. -/
def health_route (_requestBody : String) : PlainResponse := health

-- --- Statement-side definitions ---

/-- Name of the first address field of a mint request that fails base-58
parsing, in the handler's processing order (mint, destination, authority). -/
def firstInvalidField (req : MintTokenRequest) : String :=
  if Pubkey.fromStr req.mint = none then "mint"
  else if Pubkey.fromStr req.destination = none then "destination"
  else "authority"

/-- The envelope invariant of `ApiResponse<T>` as serialized: `data` and
`error` never both present; a success carries data and omits the error; an
error is HTTP 400 with an error message and no data. -/
def envelopeOk {T : Type} (r : Response T) : Prop :=
  ¬(r.data.isSome ∧ r.error.isSome) ∧
  (r.success = true → r.data.isSome ∧ r.error = none) ∧
  (r.success = false → r.status = 400 ∧ r.error.isSome ∧ r.data = none)

-- --- Theorems ---

/-- The error envelope always satisfies the envelope invariant. -/
theorem envelopeOk_error_response {T : Type} (msg : String) :
    envelopeOk (error_response (T := T) msg) := by
  simp [envelopeOk, error_response]

/-- `checkProgramAccount` accepts `spl_token::id()` itself. -/
theorem checkProgramAccount_splTokenId : checkProgramAccount splTokenId = true := by
  simp [checkProgramAccount]

/-- C1: a create-token request whose `mintAuthority` parses but whose `mint`
does not is answered with HTTP 400, `success:false`, the error message
`Invalid base58 string for mint.`, and no data. -/
theorem create_token_invalid_mint_error (req : CreateTokenRequest) (pk : Pubkey)
    (hauth : Pubkey.fromStr req.mint_authority = some pk)
    (hmint : Pubkey.fromStr req.mint = none) :
    (create_token req).status = 400 ∧ (create_token req).success = false ∧
      (create_token req).error = some "Invalid base58 string for mint." ∧
      (create_token req).data = none := by
  simp [create_token, hauth, hmint, error_response]

/-- Witness for C1: the literal example of the spec, with a valid
`mintAuthority` and `mint = "not-base58!"`. -/
theorem create_token_invalid_mint_error_witness :
    Pubkey.fromStr "TokenkegQfeZyiNwAJbNbGKPFXCWuBvf9Ss623VQ5DA" = some splTokenId ∧
    Pubkey.fromStr "not-base58!" = none ∧
    ((create_token ⟨"TokenkegQfeZyiNwAJbNbGKPFXCWuBvf9Ss623VQ5DA", "not-base58!", 6⟩).status = 400 ∧
      (create_token ⟨"TokenkegQfeZyiNwAJbNbGKPFXCWuBvf9Ss623VQ5DA", "not-base58!", 6⟩).success = false ∧
      (create_token ⟨"TokenkegQfeZyiNwAJbNbGKPFXCWuBvf9Ss623VQ5DA", "not-base58!", 6⟩).error =
        some "Invalid base58 string for mint." ∧
      (create_token ⟨"TokenkegQfeZyiNwAJbNbGKPFXCWuBvf9Ss623VQ5DA", "not-base58!", 6⟩).data = none) :=
  ⟨by decide, by decide,
    create_token_invalid_mint_error _ splTokenId (by decide) (by decide)⟩

/-- C2: a mint-token request with at least one malformed address field is
answered with the single validation error of the first malformed field in
processing order (mint, destination, authority), and no data. -/
theorem mint_token_first_invalid_field (req : MintTokenRequest)
    (h : Pubkey.fromStr req.mint = none ∨ Pubkey.fromStr req.destination = none ∨
      Pubkey.fromStr req.authority = none) :
    mint_token req =
      error_response ("Invalid base58 string for " ++ firstInvalidField req ++ ".") ∧
    (mint_token req).data = none := by
  cases hm : Pubkey.fromStr req.mint with
  | none =>
    refine ⟨?_, ?_⟩ <;> simp [mint_token, firstInvalidField, hm, error_response]
  | some mp =>
    cases hd : Pubkey.fromStr req.destination with
    | none =>
      refine ⟨?_, ?_⟩ <;> simp [mint_token, firstInvalidField, hm, hd, error_response]
    | some dp =>
      cases ha : Pubkey.fromStr req.authority with
      | none =>
        refine ⟨?_, ?_⟩ <;> simp [mint_token, firstInvalidField, hm, hd, ha, error_response]
      | some ap =>
        rw [hm, hd, ha] at h
        simp at h

/-- Witness for C2: all three addresses malformed; the error names `mint`. -/
theorem mint_token_first_invalid_field_witness :
    (Pubkey.fromStr "x!" = none ∨ Pubkey.fromStr "y!" = none ∨ Pubkey.fromStr "z!" = none) ∧
    (mint_token ⟨"x!", "y!", "z!", 1⟩ =
        error_response ("Invalid base58 string for " ++ firstInvalidField ⟨"x!", "y!", "z!", 1⟩ ++ ".") ∧
      (mint_token ⟨"x!", "y!", "z!", 1⟩).data = none) :=
  ⟨Or.inl (by decide), mint_token_first_invalid_field ⟨"x!", "y!", "z!", 1⟩ (Or.inl (by decide))⟩

/-- C7: a mint-token request whose three addresses parse and whose amount
is 0 succeeds: HTTP 200, `success:true`, data present, no error. -/
theorem mint_token_zero_amount_accepted (req : MintTokenRequest)
    (mp dp ap : Pubkey)
    (hm : Pubkey.fromStr req.mint = some mp)
    (hd : Pubkey.fromStr req.destination = some dp)
    (ha : Pubkey.fromStr req.authority = some ap)
    (_hz : req.amount = 0) :
    (mint_token req).status = 200 ∧ (mint_token req).success = true ∧
      (mint_token req).data.isSome = true ∧ (mint_token req).error = none := by
  simp [mint_token, hm, hd, ha, mint_to, checkProgramAccount]

/-- Witness for C7: three concrete valid addresses and amount 0. -/
theorem mint_token_zero_amount_accepted_witness :
    Pubkey.fromStr "TokenkegQfeZyiNwAJbNbGKPFXCWuBvf9Ss623VQ5DA" = some splTokenId ∧
    Pubkey.fromStr "SysvarRent111111111111111111111111111111111" = some rentSysvarId ∧
    Pubkey.fromStr "11111111111111111111111111111111" = some (List.replicate 32 0) ∧
    (0 : Nat) = 0 ∧
    (let req : MintTokenRequest :=
      ⟨"TokenkegQfeZyiNwAJbNbGKPFXCWuBvf9Ss623VQ5DA",
        "SysvarRent111111111111111111111111111111111",
        "11111111111111111111111111111111", 0⟩
     (mint_token req).status = 200 ∧ (mint_token req).success = true ∧
      (mint_token req).data.isSome = true ∧ (mint_token req).error = none) :=
  ⟨by decide, by decide, by decide, rfl,
    mint_token_zero_amount_accepted _ splTokenId rentSysvarId (List.replicate 32 0)
      (by decide) (by decide) (by decide) rfl⟩

/-- C8: the /health route answers HTTP 200 with plain body `OK` whatever
the request body is. -/
theorem health_always_ok (requestBody : String) :
    health_route requestBody = { status := 200, body := "OK" } := rfl

/-- C9: the token handlers are deterministic: equal request bodies give
identical responses. -/
theorem token_handlers_deterministic (c1 c2 : CreateTokenRequest)
    (m1 m2 : MintTokenRequest) (hc : c1 = c2) (hm : m1 = m2) :
    create_token c1 = create_token c2 ∧ mint_token m1 = mint_token m2 := by
  subst hc; subst hm; exact ⟨rfl, rfl⟩

/-- Witness for C9 at concrete equal requests. -/
theorem token_handlers_deterministic_witness :
    (⟨"a", "b", 1⟩ : CreateTokenRequest) = ⟨"a", "b", 1⟩ ∧
    (⟨"a", "b", "c", 2⟩ : MintTokenRequest) = ⟨"a", "b", "c", 2⟩ ∧
    (create_token ⟨"a", "b", 1⟩ = create_token ⟨"a", "b", 1⟩ ∧
      mint_token ⟨"a", "b", "c", 2⟩ = mint_token ⟨"a", "b", "c", 2⟩) :=
  ⟨rfl, rfl, token_handlers_deterministic _ _ _ _ rfl rfl⟩

/-- The program id of `spl_token::id()` prints back as the canonical
base-58 address. -/
theorem splTokenId_toString :
    Pubkey.toString splTokenId = "TokenkegQfeZyiNwAJbNbGKPFXCWuBvf9Ss623VQ5DA" := by
  decide

/-- C3: every envelope response of the three JSON handlers satisfies the
envelope invariant: `data` and `error` are never both present, a success
carries data and no error, and an error is HTTP 400 with an error message
and no data. -/
theorem handlers_envelope_invariant (ctr : CreateTokenRequest) (mtr : MintTokenRequest)
    (derive : List Nat → List Nat) (seed : List Nat) :
    envelopeOk (create_token ctr) ∧ envelopeOk (mint_token mtr) ∧
      envelopeOk (generate_keypair derive seed) := by
  refine ⟨?_, ?_, ?_⟩
  · unfold create_token
    split
    · exact envelopeOk_error_response _
    · split
      · exact envelopeOk_error_response _
      · split
        · exact envelopeOk_error_response _
        · simp [envelopeOk]
  · unfold mint_token
    split
    · exact envelopeOk_error_response _
    · split
      · exact envelopeOk_error_response _
      · split
        · exact envelopeOk_error_response _
        · split
          · exact envelopeOk_error_response _
          · simp [envelopeOk]
  · simp [generate_keypair, envelopeOk]

/-- C10: every successful mint-token response lists exactly three accounts
in order — mint (non-signer, writable), destination (non-signer, writable),
authority (signer, read-only) — and its program id is the fixed SPL token
program address. -/
theorem mint_token_accounts_shape (req : MintTokenRequest) (mp dp ap : Pubkey)
    (hm : Pubkey.fromStr req.mint = some mp)
    (hd : Pubkey.fromStr req.destination = some dp)
    (ha : Pubkey.fromStr req.authority = some ap) :
    (mint_token req).success = true ∧
    (mint_token req).data = some
      { program_id := "TokenkegQfeZyiNwAJbNbGKPFXCWuBvf9Ss623VQ5DA"
        accounts := [⟨Pubkey.toString mp, false, true⟩, ⟨Pubkey.toString dp, false, true⟩,
          ⟨Pubkey.toString ap, true, false⟩]
        instruction_data := b64EncodeStr (packMintTo req.amount) } := by
  have hpid := splTokenId_toString
  simp [mint_token, hm, hd, ha, mint_to, checkProgramAccount, instructionToResponse, hpid]

/-- Witness for C10 at three concrete valid addresses. -/
theorem mint_token_accounts_shape_witness :
    Pubkey.fromStr "TokenkegQfeZyiNwAJbNbGKPFXCWuBvf9Ss623VQ5DA" = some splTokenId ∧
    Pubkey.fromStr "SysvarRent111111111111111111111111111111111" = some rentSysvarId ∧
    Pubkey.fromStr "11111111111111111111111111111111" = some (List.replicate 32 0) ∧
    (let req : MintTokenRequest :=
      ⟨"TokenkegQfeZyiNwAJbNbGKPFXCWuBvf9Ss623VQ5DA",
        "SysvarRent111111111111111111111111111111111",
        "11111111111111111111111111111111", 7⟩
     (mint_token req).success = true ∧
     (mint_token req).data = some
      { program_id := "TokenkegQfeZyiNwAJbNbGKPFXCWuBvf9Ss623VQ5DA"
        accounts := [⟨Pubkey.toString splTokenId, false, true⟩,
          ⟨Pubkey.toString rentSysvarId, false, true⟩,
          ⟨Pubkey.toString (List.replicate 32 0), true, false⟩]
        instruction_data := b64EncodeStr (packMintTo 7) }) :=
  ⟨by decide, by decide, by decide,
    mint_token_accounts_shape _ splTokenId rentSysvarId (List.replicate 32 0)
      (by decide) (by decide) (by decide)⟩

/-- C4: the keypair response's `secret` is the base-58 encoding of exactly
the first 32 bytes of the 64-byte `to_bytes()` representation — which are
the seed, excluding the embedded public-key suffix — and `pubkey` is the
base-58 encoding of the public key. -/
theorem generate_keypair_secret_first32 (derive : List Nat → List Nat) (seed : List Nat)
    (hs : seed.length = 32) (hp : (derive seed).length = 32) :
    (Keypair.new derive seed).toBytes.length = 64 ∧
    (Keypair.new derive seed).toBytes.take 32 = seed ∧
    (generate_keypair derive seed).data = some
      { pubkey := bs58Encode (derive seed)
        secret := bs58Encode ((Keypair.new derive seed).toBytes.take 32) } := by
  refine ⟨?_, ?_, rfl⟩
  · simp [Keypair.new, Keypair.toBytes, hs, hp]
  · simpa [Keypair.new, Keypair.toBytes] using @List.take_left' _ seed (derive seed) 32 hs

/-- Witness for C4 with a concrete seed and derivation function. -/
theorem generate_keypair_secret_first32_witness :
    (List.replicate 32 3).length = 32 ∧
    ((fun (_ : List Nat) => List.replicate 32 2) (List.replicate 32 3)).length = 32 ∧
    ((Keypair.new (fun _ => List.replicate 32 2) (List.replicate 32 3)).toBytes.length = 64 ∧
     (Keypair.new (fun _ => List.replicate 32 2) (List.replicate 32 3)).toBytes.take 32 =
        List.replicate 32 3 ∧
     (generate_keypair (fun _ => List.replicate 32 2) (List.replicate 32 3)).data = some
      { pubkey := bs58Encode ((fun (_ : List Nat) => List.replicate 32 2) (List.replicate 32 3))
        secret := bs58Encode
          ((Keypair.new (fun _ => List.replicate 32 2) (List.replicate 32 3)).toBytes.take 32) }) :=
  ⟨by decide, by decide,
    generate_keypair_secret_first32 (fun _ => List.replicate 32 2) (List.replicate 32 3)
      (by decide) (by decide)⟩



theorem b64IndexOf_b64Char : ∀ s, s < 64 → b64IndexOf (b64Char s) = some s := by decide

theorem b64Char_ne_pad : ∀ s, s < 64 → ¬(b64Char s = '=') := by decide

theorem b64Decode_b64Encode (bs : List Nat) (h : ∀ b ∈ bs, b < 256) :
    b64Decode (b64Encode bs) = some bs := by
  induction bs using b64Encode.induct with
  | case1 => simp [b64Encode, b64Decode]
  | case2 b0 =>
    have h0 : b0 < 256 := h b0 (by simp)
    have e0 := b64IndexOf_b64Char (b0 / 4) (by omega)
    have e1 := b64IndexOf_b64Char (b0 % 4 * 16) (by omega)
    simp [b64Encode, b64Decode, e0, e1]
    omega
  | case3 b0 b1 =>
    have h0 : b0 < 256 := h b0 (by simp)
    have h1 : b1 < 256 := h b1 (by simp)
    have e0 := b64IndexOf_b64Char (b0 / 4) (by omega)
    have e1 := b64IndexOf_b64Char (b0 % 4 * 16 + b1 / 16) (by omega)
    have e2 := b64IndexOf_b64Char (b1 % 16 * 4) (by omega)
    have ne2 := b64Char_ne_pad (b1 % 16 * 4) (by omega)
    simp [b64Encode, b64Decode, e0, e1, e2, ne2]
    constructor <;> omega
  | case4 b0 b1 b2 rest ih =>
    have h0 : b0 < 256 := h b0 (by simp)
    have h1 : b1 < 256 := h b1 (by simp)
    have h2 : b2 < 256 := h b2 (by simp)
    have hrest : ∀ b ∈ rest, b < 256 := fun b hb => h b (by simp [hb])
    have e0 := b64IndexOf_b64Char (b0 / 4) (by omega)
    have e1 := b64IndexOf_b64Char (b0 % 4 * 16 + b1 / 16) (by omega)
    have e2 := b64IndexOf_b64Char (b1 % 16 * 4 + b2 / 64) (by omega)
    have e3 := b64IndexOf_b64Char (b2 % 64) (by omega)
    have ne2 := b64Char_ne_pad (b1 % 16 * 4 + b2 / 64) (by omega)
    have ne3 := b64Char_ne_pad (b2 % 64) (by omega)
    simp [b64Encode, b64Decode, e0, e1, e2, e3, ne2, ne3, ih hrest]
    refine ⟨by omega, by omega, by omega⟩



theorem leDigits_lt (b fuel n : Nat) (hb : 0 < b) :
    ∀ d ∈ leDigits b fuel n, d < b := by
  induction fuel generalizing n with
  | zero => simp [leDigits]
  | succ fuel ih =>
    intro d hd
    by_cases hn : n = 0
    · simp [leDigits, hn] at hd
    · simp only [leDigits, if_neg hn, List.mem_cons] at hd
      rcases hd with rfl | hd
      · exact Nat.mod_lt _ hb
      · exact ih (n / b) d hd

theorem bs58DecodeBytes_lt (s : String) (v : List Nat)
    (h : bs58DecodeBytes s = some v) : ∀ x ∈ v, x < 256 := by
  unfold bs58DecodeBytes at h
  rw [Option.map_eq_some'] at h
  obtain ⟨ds, hds, hv⟩ := h
  intro x hx
  rw [← hv] at hx
  rcases List.mem_append.mp hx with hx | hx
  · have := List.eq_of_mem_replicate hx
    omega
  · exact leDigits_lt 256 _ _ (by norm_num) x (List.mem_reverse.mp hx)

theorem fromStr_lt (s : String) (p : Pubkey)
    (h : Pubkey.fromStr s = some p) : ∀ x ∈ p, x < 256 := by
  unfold Pubkey.fromStr at h
  split at h
  · simp at h
  · cases hv : bs58DecodeBytes s with
    | none => simp [hv] at h
    | some v =>
      simp only [hv] at h
      split at h
      · exact Option.some_inj.mp h ▸ bs58DecodeBytes_lt s v hv
      · simp at h

theorem u64LEBytes_lt (n : Nat) : ∀ x ∈ u64LEBytes n, x < 256 := by
  simp [u64LEBytes]
  omega

/-- C6: on any input whose address fields all parse (and with `decimals`
in `u8` range), both token endpoints succeed with an `instruction_data`
field that is valid base-64 and decodes to a non-empty byte sequence. -/
theorem token_instruction_data_base64 (creq : CreateTokenRequest) (mreq : MintTokenRequest)
    (apk mpk mp dp ap : Pubkey)
    (hdec : creq.decimals < 256)
    (h1 : Pubkey.fromStr creq.mint_authority = some apk)
    (h2 : Pubkey.fromStr creq.mint = some mpk)
    (h3 : Pubkey.fromStr mreq.mint = some mp)
    (h4 : Pubkey.fromStr mreq.destination = some dp)
    (h5 : Pubkey.fromStr mreq.authority = some ap) :
    (∃ d bs, (create_token creq).data = some d ∧
      b64DecodeStr d.instruction_data = some bs ∧ bs ≠ []) ∧
    (∃ d bs, (mint_token mreq).data = some d ∧
      b64DecodeStr d.instruction_data = some bs ∧ bs ≠ []) := by
  constructor
  · refine ⟨instructionToResponse
      { program_id := splTokenId
        accounts := [⟨mpk, false, true⟩, ⟨rentSysvarId, false, false⟩]
        data := packInitializeMint creq.decimals apk none },
      packInitializeMint creq.decimals apk none, ?_, ?_, ?_⟩
    · simp [create_token, h1, h2, initialize_mint, checkProgramAccount]
    · show b64Decode (b64Encode (packInitializeMint creq.decimals apk none)) = _
      apply b64Decode_b64Encode
      intro b hb
      simp [packInitializeMint] at hb
      rcases hb with rfl | rfl | hb | rfl
      · omega
      · omega
      · exact fromStr_lt _ _ h1 b hb
      · omega
    · simp [packInitializeMint]
  · refine ⟨instructionToResponse
      { program_id := splTokenId
        accounts := [⟨mp, false, true⟩, ⟨dp, false, true⟩, ⟨ap, true, false⟩]
        data := packMintTo mreq.amount },
      packMintTo mreq.amount, ?_, ?_, ?_⟩
    · simp [mint_token, h3, h4, h5, mint_to, checkProgramAccount]
    · show b64Decode (b64Encode (packMintTo mreq.amount)) = _
      apply b64Decode_b64Encode
      intro b hb
      simp [packMintTo] at hb
      rcases hb with rfl | hb
      · omega
      · exact u64LEBytes_lt _ b hb
    · simp [packMintTo]

/-- Witness for C6 at concrete valid requests. -/
theorem token_instruction_data_base64_witness :
    (6 : Nat) < 256 ∧
    Pubkey.fromStr "11111111111111111111111111111111" = some (List.replicate 32 0) ∧
    Pubkey.fromStr "TokenkegQfeZyiNwAJbNbGKPFXCWuBvf9Ss623VQ5DA" = some splTokenId ∧
    Pubkey.fromStr "TokenkegQfeZyiNwAJbNbGKPFXCWuBvf9Ss623VQ5DA" = some splTokenId ∧
    Pubkey.fromStr "SysvarRent111111111111111111111111111111111" = some rentSysvarId ∧
    Pubkey.fromStr "11111111111111111111111111111111" = some (List.replicate 32 0) ∧
    ((∃ d bs,
        (create_token ⟨"11111111111111111111111111111111",
          "TokenkegQfeZyiNwAJbNbGKPFXCWuBvf9Ss623VQ5DA", 6⟩).data = some d ∧
        b64DecodeStr d.instruction_data = some bs ∧ bs ≠ []) ∧
     (∃ d bs,
        (mint_token ⟨"TokenkegQfeZyiNwAJbNbGKPFXCWuBvf9Ss623VQ5DA",
          "SysvarRent111111111111111111111111111111111",
          "11111111111111111111111111111111", 3⟩).data = some d ∧
        b64DecodeStr d.instruction_data = some bs ∧ bs ≠ [])) :=
  ⟨by decide, by decide, by decide, by decide, by decide, by decide,
    token_instruction_data_base64
      ⟨"11111111111111111111111111111111", "TokenkegQfeZyiNwAJbNbGKPFXCWuBvf9Ss623VQ5DA", 6⟩
      ⟨"TokenkegQfeZyiNwAJbNbGKPFXCWuBvf9Ss623VQ5DA",
        "SysvarRent111111111111111111111111111111111",
        "11111111111111111111111111111111", 3⟩
      (List.replicate 32 0) splTokenId splTokenId rentSysvarId (List.replicate 32 0)
      (by decide) (by decide) (by decide) (by decide) (by decide) (by decide)⟩



theorem toList_mk (l : List Char) : (String.mk l).toList = l := rfl

theorem b58IndexOf_one : b58IndexOf '1' = some 0 := by decide

theorem b58IndexOf_b58Char : ∀ d, d < 58 → b58IndexOf (b58Char d) = some d := by decide

theorem b58Char_ne_one : ∀ d, d < 58 → d ≠ 0 → (b58Char d == '1') = false := by decide

theorem takeWhile_append_all {α : Type} (p : α → Bool) (l1 l2 : List α)
    (h : ∀ x ∈ l1, p x = true) :
    (l1 ++ l2).takeWhile p = l1 ++ l2.takeWhile p := by
  induction l1 with
  | nil => simp
  | cons a l ih =>
    have ha := h a (List.mem_cons_self _ _)
    simp [List.takeWhile_cons, ha, ih (fun x hx => h x (List.mem_cons_of_mem _ hx))]

theorem dropWhile_head_false {α : Type} (p : α → Bool) :
    ∀ (l : List α) (d : α) (t' : List α), l.dropWhile p = d :: t' → p d = false := by
  intro l
  induction l with
  | nil => intro d t' h; simp at h
  | cons a l ih =>
    intro d t' h
    by_cases hp : p a = true
    · rw [List.dropWhile_cons, if_pos hp] at h
      exact ih d t' h
    · rw [List.dropWhile_cons, if_neg hp] at h
      cases h
      simpa using hp

theorem foldl_mul_add (b : Nat) :
    ∀ (L : List Nat) (a : Nat),
      L.foldl (fun acc d => acc * b + d) a = a * b ^ L.length + Nat.ofDigits b L.reverse
  | [], a => by simp [Nat.ofDigits]
  | d :: L, a => by
    simp only [List.foldl_cons, List.length_cons, List.reverse_cons]
    rw [foldl_mul_add b L (a * b + d), Nat.ofDigits_append]
    simp [Nat.ofDigits_cons, Nat.ofDigits_nil, List.length_reverse]
    ring

theorem leDigits_eq_digits (b fuel n : Nat) (hb : 2 ≤ b) (h : n < b ^ fuel) :
    leDigits b fuel n = Nat.digits b n := by
  induction fuel generalizing n with
  | zero =>
    have hn : n = 0 := by simpa using h
    subst hn
    simp [leDigits]
  | succ fuel ih =>
    by_cases hn : n = 0
    · simp [leDigits, hn]
    · rw [Nat.digits_def' (by omega : 1 < b) (Nat.pos_of_ne_zero hn)]
      simp only [leDigits, if_neg hn]
      congr 1
      apply ih
      rw [Nat.div_lt_iff_lt_mul (by omega : 0 < b)]
      rw [pow_succ] at h
      exact h

theorem b58Values_append :
    ∀ (l1 l2 : List Char) (v1 v2 : List Nat),
      b58Values l1 = some v1 → b58Values l2 = some v2 →
      b58Values (l1 ++ l2) = some (v1 ++ v2) := by
  intro l1
  induction l1 with
  | nil =>
    intro l2 v1 v2 h1 h2
    simp [b58Values] at h1
    subst h1
    simpa using h2
  | cons c cs ih =>
    intro l2 v1 v2 h1 h2
    simp only [List.cons_append, b58Values] at h1 ⊢
    cases hc : b58IndexOf c with
    | none => rw [hc] at h1; simp at h1
    | some d =>
      rw [hc] at h1
      cases hcs : b58Values cs with
      | none => rw [hcs] at h1; simp at h1
      | some ds =>
        rw [hcs] at h1
        have h1' : d :: ds = v1 := Option.some_inj.mp h1
        have hg : b58Values (cs.append l2) = some (ds ++ v2) := ih l2 ds v2 hcs h2
        rw [hg]
        subst h1'
        rfl

theorem b58Values_replicate (k : Nat) :
    b58Values (List.replicate k '1') = some (List.replicate k 0) := by
  induction k with
  | zero => simp [b58Values]
  | succ k ih => simp [List.replicate_succ, b58Values, b58IndexOf_one, ih]

theorem b58Values_map (ds : List Nat) (h : ∀ d ∈ ds, d < 58) :
    b58Values (ds.map b58Char) = some ds := by
  induction ds with
  | nil => simp [b58Values]
  | cons d ds ih =>
    have hd := h d (List.mem_cons_self _ _)
    simp [b58Values, b58IndexOf_b58Char d hd,
      ih (fun x hx => h x (List.mem_cons_of_mem _ hx))]

theorem ofDigits_replicate_zero (b k : Nat) :
    Nat.ofDigits b (List.replicate k 0) = 0 := by
  induction k with
  | zero => simp [Nat.ofDigits_nil]
  | succ k ih => simp [List.replicate_succ, Nat.ofDigits_cons, ih]



theorem bs58_roundtrip_aux (zeros : Nat) (tail : List Nat)
    (hlt : ∀ x ∈ tail, x < 256)
    (hhd : ∀ d t', tail = d :: t' → d ≠ 0) :
    bs58DecodeBytes (bs58Encode (List.replicate zeros 0 ++ tail)) =
      some (List.replicate zeros 0 ++ tail) := by
  have htail_rev_lt : ∀ x ∈ tail.reverse, x < 256 := fun x hx => hlt x (List.mem_reverse.mp hx)
  have hlast : ∀ hne : tail.reverse ≠ [], tail.reverse.getLast hne ≠ 0 := by
    intro hne
    cases tail with
    | nil => simp at hne
    | cons d t' =>
      have hd : d ≠ 0 := hhd d t' rfl
      have h3 : (d :: t').reverse.getLast? = some d := by
        rw [List.reverse_cons]
        exact List.getLast?_concat _
      have h4 := List.getLast?_eq_getLast ((d :: t').reverse) hne
      rw [h4] at h3
      have h5 := Option.some_inj.mp h3
      rw [h5]
      exact hd
  have hdig256 : Nat.digits 256 (Nat.ofDigits 256 tail.reverse) = tail.reverse :=
    Nat.digits_ofDigits 256 (by norm_num) _ htail_rev_lt hlast
  have hTW0 : (List.replicate zeros 0 ++ tail).takeWhile (· == 0) = List.replicate zeros 0 := by
    rw [takeWhile_append_all _ _ _ (fun x hx => by simp [List.eq_of_mem_replicate hx])]
    suffices hsuf : tail.takeWhile (· == 0) = [] by rw [hsuf, List.append_nil]
    cases tail with
    | nil => rfl
    | cons d t' =>
      have hd : d ≠ 0 := hhd d t' rfl
      rw [List.takeWhile_cons]
      simp [hd]
  have hN : (List.replicate zeros 0 ++ tail).foldl (fun acc b => acc * 256 + b) 0 =
      Nat.ofDigits 256 tail.reverse := by
    rw [foldl_mul_add 256, List.reverse_append, List.reverse_replicate,
      Nat.ofDigits_append, ofDigits_replicate_zero]
    simp
  have h58 : leDigits 58 (2 * (List.replicate zeros 0 ++ tail).length)
      (Nat.ofDigits 256 tail.reverse) = Nat.digits 58 (Nat.ofDigits 256 tail.reverse) := by
    have h1 : Nat.ofDigits 256 tail.reverse < 256 ^ tail.length := by
      have h2 : Nat.ofDigits 256 tail.reverse < 256 ^ tail.reverse.length :=
        Nat.ofDigits_lt_base_pow_length (by norm_num) htail_rev_lt
      rwa [List.length_reverse] at h2
    have h2 : (256 : Nat) ^ tail.length ≤ 58 ^ (2 * tail.length) := by
      have := Nat.pow_le_pow_left (show (256 : Nat) ≤ 58 ^ 2 by norm_num) tail.length
      rwa [← pow_mul] at this
    have h3 : (58 : Nat) ^ (2 * tail.length) ≤
        58 ^ (2 * (List.replicate zeros 0 ++ tail).length) :=
      Nat.pow_le_pow_right (by norm_num)
        (by
          have hlen : (List.replicate zeros (0 : Nat) ++ tail).length = zeros + tail.length := by
            simp
          omega)
    exact leDigits_eq_digits _ _ _ (by norm_num) (lt_of_lt_of_le h1 (le_trans h2 h3))
  have hEnc : bs58Encode (List.replicate zeros 0 ++ tail) =
      String.mk (List.replicate zeros '1' ++
        (Nat.digits 58 (Nat.ofDigits 256 tail.reverse)).reverse.map b58Char) := by
    unfold bs58Encode
    rw [hTW0, hN, h58, List.length_replicate]
  have hvals : b58Values (List.replicate zeros '1' ++
      (Nat.digits 58 (Nat.ofDigits 256 tail.reverse)).reverse.map b58Char) =
      some (List.replicate zeros 0 ++
        (Nat.digits 58 (Nat.ofDigits 256 tail.reverse)).reverse) :=
    b58Values_append _ _ _ _ (b58Values_replicate zeros)
      (b58Values_map _ (fun d hd =>
        Nat.digits_lt_base (by norm_num) (List.mem_reverse.mp hd)))
  have hTW1 : ((List.replicate zeros '1' ++
      (Nat.digits 58 (Nat.ofDigits 256 tail.reverse)).reverse.map b58Char).takeWhile
        (· == '1')) = List.replicate zeros '1' := by
    rw [takeWhile_append_all _ _ _ (fun x hx => by simp [List.eq_of_mem_replicate hx])]
    suffices hsuf : (((Nat.digits 58 (Nat.ofDigits 256 tail.reverse)).reverse.map
        b58Char).takeWhile (· == '1')) = [] by rw [hsuf, List.append_nil]
    cases hrev : (Nat.digits 58 (Nat.ofDigits 256 tail.reverse)).reverse with
    | nil => simp
    | cons d r' =>
      have hd_mem : d ∈ Nat.digits 58 (Nat.ofDigits 256 tail.reverse) :=
        List.mem_reverse.mp (by rw [hrev]; exact List.mem_cons_self _ _)
      have hd58 : d < 58 := Nat.digits_lt_base (by norm_num) hd_mem
      have hN0 : Nat.ofDigits 256 tail.reverse ≠ 0 := by
        intro h0
        rw [h0] at hrev
        simp at hrev
      have hdne : Nat.digits 58 (Nat.ofDigits 256 tail.reverse) ≠ [] :=
        Nat.digits_ne_nil_iff_ne_zero.mpr hN0
      have hd0 : d ≠ 0 := by
        have h1 : (Nat.digits 58 (Nat.ofDigits 256 tail.reverse)).getLast? = some d := by
          rw [← List.head?_reverse, hrev]
          rfl
        rw [List.getLast?_eq_getLast _ hdne] at h1
        have h5 := Option.some_inj.mp h1
        rw [← h5]
        exact Nat.getLast_digit_ne_zero 58 hN0
      simp [List.takeWhile_cons, b58Char_ne_one d hd58 hd0]
  have hfold2 : (List.replicate zeros 0 ++
      (Nat.digits 58 (Nat.ofDigits 256 tail.reverse)).reverse).foldl
        (fun acc d => acc * 58 + d) 0 = Nat.ofDigits 256 tail.reverse := by
    rw [foldl_mul_add 58, List.reverse_append, List.reverse_replicate, List.reverse_reverse,
      Nat.ofDigits_append, ofDigits_replicate_zero, Nat.ofDigits_digits]
    simp
  have h256 : leDigits 256 (zeros + (Nat.digits 58 (Nat.ofDigits 256 tail.reverse)).length)
      (Nat.ofDigits 256 tail.reverse) = Nat.digits 256 (Nat.ofDigits 256 tail.reverse) := by
    have h1 : Nat.ofDigits 256 tail.reverse <
        58 ^ (Nat.digits 58 (Nat.ofDigits 256 tail.reverse)).length :=
      Nat.lt_base_pow_length_digits (by norm_num)
    have h2 : (58 : Nat) ^ (Nat.digits 58 (Nat.ofDigits 256 tail.reverse)).length ≤
        256 ^ (Nat.digits 58 (Nat.ofDigits 256 tail.reverse)).length :=
      Nat.pow_le_pow_left (by norm_num) _
    have h3 : (256 : Nat) ^ (Nat.digits 58 (Nat.ofDigits 256 tail.reverse)).length ≤
        256 ^ (zeros + (Nat.digits 58 (Nat.ofDigits 256 tail.reverse)).length) :=
      Nat.pow_le_pow_right (by norm_num) (by omega)
    exact leDigits_eq_digits _ _ _ (by norm_num) (lt_of_lt_of_le h1 (le_trans h2 h3))
  rw [hEnc]
  unfold bs58DecodeBytes
  simp only [toList_mk]
  rw [hvals, Option.map_some']
  simp only [hTW1, hfold2, List.length_replicate, List.length_append, List.length_map,
    List.length_reverse]
  rw [h256, hdig256, List.reverse_reverse]



theorem bs58_roundtrip (bs : List Nat) (h : ∀ x ∈ bs, x < 256) :
    bs58DecodeBytes (bs58Encode bs) = some bs := by
  have htake : bs.takeWhile (· == 0) = List.replicate ((bs.takeWhile (· == 0)).length) 0 :=
    List.eq_replicate_of_mem (fun x hx => by simpa using List.mem_takeWhile_imp hx)
  have hsplit : List.replicate ((bs.takeWhile (· == 0)).length) 0 ++
      bs.dropWhile (· == 0) = bs := by
    rw [← htake]
    exact List.takeWhile_append_dropWhile _ _
  have haux := bs58_roundtrip_aux ((bs.takeWhile (· == 0)).length) (bs.dropWhile (· == 0))
    (fun x hx => h x ((List.dropWhile_sublist (· == 0)).subset hx))
    (fun d t' hdt => by
      have hfalse := dropWhile_head_false (· == 0) bs d t' hdt
      simpa using hfalse)
  rw [hsplit] at haux
  exact haux

/-- C5: for every generated keypair response, decoding the returned base-58
secret gives back the 32 seed bytes, and deriving the public key from them
reproduces the returned pubkey. -/
theorem generate_keypair_rederive_pubkey (derive : List Nat → List Nat) (seed : List Nat)
    (hs : seed.length = 32) (hb : ∀ x ∈ seed, x < 256) :
    ∃ kr sb, (generate_keypair derive seed).data = some kr ∧
      bs58DecodeBytes kr.secret = some sb ∧
      sb.length = 32 ∧
      bs58Encode (derive sb) = kr.pubkey := by
  refine ⟨{ pubkey := bs58Encode (derive seed)
            secret := bs58Encode ((Keypair.new derive seed).toBytes.take 32) },
    seed, rfl, ?_, hs, rfl⟩
  have htake : (Keypair.new derive seed).toBytes.take 32 = seed := by
    simpa [Keypair.new, Keypair.toBytes] using @List.take_left' _ seed (derive seed) 32 hs
  rw [htake]
  exact bs58_roundtrip seed hb

/-- Witness for C5 with a concrete seed and derivation function. -/
theorem generate_keypair_rederive_pubkey_witness :
    (List.replicate 32 3).length = 32 ∧
    (∀ x ∈ List.replicate 32 3, x < 256) ∧
    (∃ kr sb,
      (generate_keypair (fun _ => List.replicate 32 2) (List.replicate 32 3)).data = some kr ∧
      bs58DecodeBytes kr.secret = some sb ∧
      sb.length = 32 ∧
      bs58Encode ((fun (_ : List Nat) => List.replicate 32 2) sb) = kr.pubkey) :=
  ⟨by decide, by decide,
    generate_keypair_rederive_pubkey (fun _ => List.replicate 32 2) (List.replicate 32 3)
      (by decide) (by decide)⟩

end SolanaHttp
